import Mathlib

/-!
Verification of the evaporative-cooling simulation driver (`src/main.rs`)
and of the collision-engine behaviour its specification describes.

The driver (`main.rs`) configures an optical-dipole-trap simulation, inserts
collision parameters and a `CollisionsTracker` resource, runs the stepping
loop for 50 000 frames and periodically writes collision statistics with
`write_collisions_tracker`.  The collision engine itself lives in the
external `atomecs` crate (`lib::collisions`), so the parts of the model that
concern it are modelled from the specification and carry a doc comment
saying so.

Numeric conventions of the shallow embedding: Rust `f64` values are embedded
as rationals `ℚ` (the spec's "within numerical tolerance" becomes exact
equality over `ℚ`), `i32` values as `ℤ`, loop counters as `ℕ`.
-/

namespace EvapCooling

/-! ## Rational 3-vectors

`nalgebra::Vector3<f64>` embedded with rational components. -/

structure V3 where
  x : ℚ
  y : ℚ
  z : ℚ
  deriving DecidableEq, Repr

def V3.add (a b : V3) : V3 := ⟨a.x + b.x, a.y + b.y, a.z + b.z⟩

def V3.sub (a b : V3) : V3 := ⟨a.x - b.x, a.y - b.y, a.z - b.z⟩

def V3.smul (c : ℚ) (a : V3) : V3 := ⟨c * a.x, c * a.y, c * a.z⟩

/-- Squared Euclidean norm (the norm itself is irrational in general, so the
model works with its square throughout). -/
def V3.normSq (a : V3) : ℚ := a.x * a.x + a.y * a.y + a.z * a.z

def V3.zero : V3 := ⟨0, 0, 0⟩

/-! ## Elastic binary collision -/

/-- Modelled from the spec: the collision engine is in the external `atomecs`
crate, not under `src/`.  Spec §4.2 step 4: "perform an elastic two-body
velocity update in the center-of-mass frame with a randomly oriented
post-collision relative-velocity direction".  The randomly oriented
post-collision relative velocity is passed in as `w`; physical validity of
the draw is the side condition `normSq w = normSq (vA - vB)` (same speed,
any orientation). -/
def elasticCollision (mA mB : ℚ) (vA vB w : V3) : V3 × V3 :=
  let vcm := V3.smul (1 / (mA + mB)) (V3.add (V3.smul mA vA) (V3.smul mB vB))
  (V3.add vcm (V3.smul (mB / (mA + mB)) w),
   V3.sub vcm (V3.smul (mA / (mA + mB)) w))

/-- Total momentum of a two-particle system. -/
def momentum (mA mB : ℚ) (vA vB : V3) : V3 :=
  V3.add (V3.smul mA vA) (V3.smul mB vB)

/-- Total kinetic energy of a two-particle system. -/
def kineticEnergy (mA mB : ℚ) (vA vB : V3) : ℚ :=
  mA / 2 * V3.normSq vA + mB / 2 * V3.normSq vB

/-! ## Collision statistics formatting (`write_collisions_tracker`)

The Rust function builds three space-joined string lists and issues a single
`write!` with format string `"{:?}\r\n{:}\r\n{:}\r\n{:}\r\n"`. -/

/-- Decimal digit characters of `n`, most significant first; `fuel`-bounded
structural recursion (any `fuel > number of digits` gives the digits). -/
def natDigitsAux : ℕ → ℕ → List Char
  | 0, _ => []
  | fuel + 1, n => if n = 0 then [] else natDigitsAux fuel (n / 10) ++ [Nat.digitChar (n % 10)]

/-- Decimal rendering of a natural, as produced by Rust `to_string`. -/
def natStr (n : ℕ) : String :=
  if n = 0 then "0" else String.mk (natDigitsAux (n + 1) n)

/-- Decimal rendering of an integer, as produced by Rust `i32::to_string`
(and by the `{:?}` debug format, which coincides with it on `i32`). -/
def intStr (i : ℤ) : String :=
  if i < 0 then "-" ++ natStr i.natAbs else natStr i.natAbs

/-- Rust's `Vec::join(" ")`: elements separated by single spaces. -/
def joinSpace : List String → String
  | [] => ""
  | [s] => s
  | s :: s2 :: rest => s ++ " " ++ joinSpace (s2 :: rest)

/-- Rust's `format!("{:.2}", n)` on the rational embedding of an `f64`:
round to the nearest hundredth and print with exactly two digits after the
decimal point.  (Exact decimal ties of the binary value are resolved
upwards here; an `f64` is essentially never an exact tie.) -/
def format2dp (q : ℚ) : String :=
  let n : ℤ := round (q * 100)
  (if n < 0 then "-" else "") ++ natStr (n.natAbs / 100) ++ "." ++
    String.mk [Nat.digitChar (n.natAbs / 10 % 10), Nat.digitChar (n.natAbs % 10)]

/-- The full text block produced by one invocation of
`write_collisions_tracker` (src/main.rs lines 185–204): the step index
(debug-formatted `i32`), then the collision counts, the `{:.2}`-formatted
mean atom numbers and the occupied-box counts, each list space-joined and
each of the four lines terminated by `"\r\n"`. -/
def write_collisions_tracker (step : ℤ) (num_collisions : List ℤ)
    (num_atoms : List ℚ) (num_particles : List ℤ) : String :=
  let str_collisions := num_collisions.map fun n => intStr n
  let str_atoms := num_atoms.map fun n => format2dp n
  let str_particles := num_particles.map fun n => intStr n
  intStr step ++ "\r\n" ++ joinSpace str_collisions ++ "\r\n" ++
    joinSpace str_atoms ++ "\r\n" ++ joinSpace str_particles ++ "\r\n"

/-- `true` iff the string contains neither carriage return nor line feed,
i.e. it is a single line of the output table. -/
def noCRLF (s : String) : Bool :=
  s.data.all fun c => !(c == '\r') && !(c == '\n')

/-- `true` iff the string ends in a decimal point followed by exactly two
digits, with no other decimal point: the shape of a `{:.2}` rendering. -/
def twoDecimalShape (s : String) : Bool :=
  match s.data.reverse with
  | d2 :: d1 :: c :: rest =>
      d1.isDigit && d2.isDigit && (c == '.') && rest.all fun e => !(e == '.')
  | _ => false

/-- `true` iff the string is a plain decimal integer rendering: decimal
digits with at most a leading minus sign. -/
def plainDecimal (s : String) : Bool :=
  s.data.all fun c => c.isDigit || c == '-'

/-! ## The statistics output channel (`File::create` / `write!`)

The driver creates the statistics file at setup with
`File::create(..).expect(..)` and, inside the loop, calls
`write_collisions_tracker(..).expect(..)`; both `expect`s abort the run on
error.  The file and the fallible byte sink are modelled explicitly. -/

/-- The statistics output file: the bytes accepted so far, plus whether the
destination accepts further writes (an unwritable destination makes every
write fail). -/
structure StatsFile where
  written : String
  writable : Bool
  deriving DecidableEq, Repr

inductive StatsError where
  | createFailed
  | writeFailed
  deriving DecidableEq, Repr

/-- `File::create("D:/data_1/collisions_3.txt")` at setup (src/main.rs line
161): either yields a fresh file handle or fails. -/
def createStatsFile (canCreate writable : Bool) : Except StatsError StatsFile :=
  if canCreate then .ok ⟨"", writable⟩ else .error .createFailed

/-- One `write!` on the statistics file: appends the bytes on success,
returns the underlying I/O error when the destination is unwritable. -/
def fileWrite (f : StatsFile) (s : String) : Except StatsError StatsFile :=
  if f.writable then .ok ⟨f.written ++ s, f.writable⟩ else .error .writeFailed

/-- `write_collisions_tracker` as executed against a file: it builds the
text block and performs its single fallible `write!`, returning `Err`
exactly when that write fails.  The tracker vectors are taken by shared
reference in the Rust signature and are only read. -/
def write_collisions_tracker_call (f : StatsFile) (step : ℤ)
    (num_collisions : List ℤ) (num_atoms : List ℚ) (num_particles : List ℤ) :
    Except StatsError StatsFile :=
  fileWrite f (write_collisions_tracker step num_collisions num_atoms num_particles)

/-- `CollisionsTracker` (`lib::collisions`): the three per-frame statistics
sequences.  The element types mirror the Rust ones — `Vec<i32>` for
collision counts, `Vec<f64>` for mean atoms per box, `Vec<i32>` for
occupied-box counts — as pinned by the `write_collisions_tracker` call in
src/main.rs lines 169–175. -/
structure CollisionsTracker where
  num_collisions : List ℤ
  num_atoms : List ℚ
  num_particles : List ℤ
  deriving DecidableEq, Repr

def CollisionsTracker.empty : CollisionsTracker := ⟨[], [], []⟩

/-- The write step of the main loop: read the tracker resource and write its
current contents; the in-memory tracker is returned alongside the new file
state, untouched by the attempt. -/
def flushStats (tr : CollisionsTracker) (f : StatsFile) (step : ℤ) :
    Except StatsError (CollisionsTracker × StatsFile) :=
  match write_collisions_tracker_call f step tr.num_collisions tr.num_atoms tr.num_particles with
  | .ok f2 => .ok (tr, f2)
  | .error e => .error e

/-- The output behaviour of the main loop over a list of frame indices:
on each index `i` with `i > 0 ∧ i % 50 = 0` the statistics are flushed, and
a failed flush aborts the run (the `expect` in src/main.rs line 176). -/
def outputLoop (tr : CollisionsTracker) : List ℕ → StatsFile → Except StatsError StatsFile
  | [], f => .ok f
  | i :: rest, f =>
      if 0 < i ∧ i % 50 = 0 then
        match flushStats tr f (i : ℤ) with
        | .error e => .error e
        | .ok (_, f2) => outputLoop tr rest f2
      else outputLoop tr rest f

/-- Setup plus the output behaviour of an `n`-frame run: create the
statistics file (aborting the run if that fails), then run the per-frame
output loop. -/
def outputRun (canCreate writable : Bool) (tr : CollisionsTracker) (n : ℕ) :
    Except StatsError StatsFile :=
  match createStatsFile canCreate writable with
  | .error e => .error e
  | .ok f0 => outputLoop tr (List.range n) f0

/-! ## Collision parameters and configuration (src/main.rs lines 141–158) -/

structure CollisionParameters where
  macroparticle : ℚ
  box_number : ℕ
  box_width : ℚ
  sigma : ℚ
  collision_limit : ℚ
  deriving DecidableEq, Repr

/-- The `CollisionParameters` inserted by the driver (src/main.rs lines
142–150): `macroparticle: 4e2`, `box_number: 1000`, `box_width: 1e-6`,
`sigma: 1.95e-19`, `collision_limit: 10_000.0`. -/
def simParams : CollisionParameters :=
  ⟨400, 1000, 1 / 1000000, 195 / 10 ^ 21, 10000⟩

/-- The `Timestep { delta: 1.0e-6 }` resource (src/main.rs line 158). -/
def timestep : ℚ := 1 / 1000000

/-! ## The collision engine

Modelled from the spec (§4.1, §4.2): the engine itself is in the external
`atomecs` crate, not under `src/`.  Mean relative speed enters the rate
formula through its squared-mean rational surrogate, and the isotropic
scattering direction is drawn from a finite set of norm-preserving rational
rotations, since square roots and arbitrary unit vectors leave `ℚ`. -/

structure Particle where
  pos : V3
  vel : V3
  mass : ℚ
  deriving DecidableEq, Repr

instance : Inhabited Particle := ⟨⟨V3.zero, V3.zero, 0⟩⟩

/-- Spec §4.1: box identity by floor-division of position by box width;
boundaries belong to the box on the positive side. -/
def boxIndex (width : ℚ) (p : V3) : ℤ × ℤ × ℤ :=
  (⌊p.x / width⌋, ⌊p.y / width⌋, ⌊p.z / width⌋)

/-- The boxes occupied by at least one particle, each listed once. -/
def boxesOf (width : ℚ) (ps : List Particle) : List (ℤ × ℤ × ℤ) :=
  (ps.map fun p => boxIndex width p.pos).dedup

/-- Indices of the particles currently inside box `b`. -/
def membersIn (width : ℚ) (ps : List Particle) (b : ℤ × ℤ × ℤ) : List ℕ :=
  (ps.enum.filter fun ip => decide (boxIndex width ip.2.pos = b)).map fun ip => ip.1

/-- Sum of squared relative velocities over unordered particle pairs. -/
def pairRelSqSum : List V3 → ℚ
  | [] => 0
  | v :: rest => (rest.map fun u => V3.normSq (V3.sub v u)).sum + pairRelSqSum rest

/-- Mean squared relative speed over the pairs of a box. -/
def vbarSq (vs : List V3) : ℚ :=
  if vs.length < 2 then 0
  else pairRelSqSum vs / ((vs.length : ℚ) * ((vs.length : ℚ) - 1) / 2)

/-- Modelled from the spec (§4.2 steps 1–2): expected collision count of a
box for one timestep, `∝ n_pairs × density × σ × mean relative speed × Δt`,
with density `n × macroparticle / box volume`. -/
def boxRate (params : CollisionParameters) (dt : ℚ) (n : ℕ) (vb : ℚ) : ℚ :=
  let density := (n : ℚ) * params.macroparticle / params.box_width ^ 3
  ((n : ℚ) * ((n : ℚ) - 1) / 2) * density * params.sigma * vb * dt

/-- Modelled from the spec (§4.2 steps 3–4): cap the expected count at the
configured per-frame ceiling, then resolve the rounded-expectation number of
discrete events. -/
def realizedCollisions (est limit : ℚ) : ℕ :=
  (round (min est limit)).toNat

/-- A linear-congruential generator standing in for the process-wide random
source (`rand::thread_rng`). -/
structure Rng where
  state : ℕ
  deriving DecidableEq, Repr

def Rng.next (r : Rng) : ℕ × Rng :=
  let s := (r.state * 1103515245 + 12345) % 2147483648
  (s / 65536, ⟨s⟩)

def Rng.below (r : Rng) (n : ℕ) : ℕ × Rng :=
  let (v, r2) := r.next
  (v % n, r2)

/-- Modelled from the spec (§4.2 step 4): a randomly oriented post-collision
relative-velocity direction, drawn from norm-preserving rational rotations. -/
def scatter (k : ℕ) (v : V3) : V3 :=
  match k % 6 with
  | 0 => v
  | 1 => ⟨-v.x, -v.y, -v.z⟩
  | 2 => ⟨v.y, v.x, v.z⟩
  | 3 => ⟨v.x, v.z, v.y⟩
  | 4 => ⟨v.z, v.y, v.x⟩
  | _ => ⟨v.x, -v.y, v.z⟩

/-- Resolve one collision event between particles `i` and `j`, writing the
updated velocities back into the store. -/
def applyEvent (ps : List Particle) (i j k : ℕ) : List Particle :=
  let a := ps.getD i default
  let b := ps.getD j default
  let w := scatter k (V3.sub a.vel b.vel)
  let vs := elasticCollision a.mass b.mass a.vel b.vel w
  (ps.set i ⟨a.pos, vs.1, a.mass⟩).set j ⟨b.pos, vs.2, b.mass⟩

/-- Pick two distinct member indices at random and resolve one event. -/
def collisionEvent (ps : List Particle) (members : List ℕ) (rng : Rng) :
    List Particle × Rng :=
  let av := rng.below members.length
  let bv := av.2.below (members.length - 1)
  let i := members.getD av.1 0
  let j := (members.eraseIdx av.1).getD bv.1 0
  let kv := bv.2.next
  (applyEvent ps i j kv.1, kv.2)

/-- Modelled from the spec (§4.2): per-box collision resolution — a box with
fewer than two particles contributes zero collisions; otherwise estimate the
rate, cap it at the ceiling, and resolve that many random pair events. -/
def resolveBox (params : CollisionParameters) (dt : ℚ) (ps : List Particle)
    (members : List ℕ) (rng : Rng) : List Particle × ℕ × Rng :=
  if members.length < 2 then (ps, 0, rng)
  else
    let est := boxRate params dt members.length
      (vbarSq (members.map fun i => (ps.getD i default).vel))
    let count := realizedCollisions est params.collision_limit
    let res := (List.range count).foldl
      (fun st _ => collisionEvent st.1 members st.2) (ps, rng)
    (res.1, count, res.2)

/-- Per-frame statistics accumulated over the occupied boxes. -/
structure FrameStats where
  collisions : ℕ
  occupiedAtoms : ℕ
  occupied : ℕ
  deriving DecidableEq, Repr

/-- Modelled from the spec (§4.2, §4.4): one collision pass — bin, resolve
each occupied box (≥ 2 particles), and accumulate the frame statistics. -/
def collideFrame (params : CollisionParameters) (dt : ℚ) (ps : List Particle)
    (rng : Rng) : List Particle × FrameStats × Rng :=
  (boxesOf params.box_width ps).foldl
    (fun st b =>
      let members := membersIn params.box_width st.1 b
      if members.length < 2 then st
      else
        let res := resolveBox params dt st.1 members st.2.2
        (res.1,
         ⟨st.2.1.collisions + res.2.1, st.2.1.occupiedAtoms + members.length,
          st.2.1.occupied + 1⟩,
         res.2.2))
    (ps, ⟨0, 0, 0⟩, rng)

/-- Append one frame record to the tracker: collision count, mean atoms per
occupied box, occupied-box count. -/
def recordFrame (t : CollisionsTracker) (stats : FrameStats) : CollisionsTracker :=
  ⟨t.num_collisions ++ [(stats.collisions : ℤ)],
   t.num_atoms ++
     [if stats.occupied = 0 then 0 else (stats.occupiedAtoms : ℚ) / (stats.occupied : ℚ)],
   t.num_particles ++ [(stats.occupied : ℤ)]⟩

/-- Modelled from the spec (§4.3): kinematic advance by one timestep; the
force accumulator is owned by the external force providers and enters the
collision core only through the velocities. -/
def drift (dt : ℚ) (ps : List Particle) : List Particle :=
  ps.map fun p => ⟨V3.add p.pos (V3.smul dt p.vel), p.vel, p.mass⟩

structure SimState where
  particles : List Particle
  tracker : CollisionsTracker
  rng : Rng
  deriving DecidableEq, Repr

/-- Modelled from the spec (§2, §4.8): one frame — integrate, bin, collide,
record. -/
def simStep (params : CollisionParameters) (dt : ℚ) (st : SimState) : SimState :=
  let ps := drift dt st.particles
  let res := collideFrame params dt ps st.rng
  ⟨res.1, recordFrame st.tracker res.2.1, res.2.2⟩

/-- An `n`-frame run from a seed, an initial particle set and a
configuration. -/
def runSim (params : CollisionParameters) (dt : ℚ) (seed : ℕ)
    (init : List Particle) (n : ℕ) : SimState :=
  (simStep params dt)^[n] ⟨init, .empty, ⟨seed⟩⟩

/-- One random component draw: a value in `{0, …, m-1}` recentred around
zero and scaled. -/
def drawComp (r : Rng) (m : ℕ) (scale : ℚ) : ℚ × Rng :=
  let v := r.next
  ((((v.1 % m : ℕ) : ℚ) - ((m / 2 : ℕ) : ℚ)) * scale, v.2)

def drawV3 (r : Rng) (m : ℕ) (scale : ℚ) : V3 × Rng :=
  let a := drawComp r m scale
  let b := drawComp a.2 m scale
  let c := drawComp b.2 m scale
  (⟨a.1, b.1, c.1⟩, c.2)

/-- Modelled from the driver (src/main.rs lines 109–139): each created atom
draws its three position components and three velocity components from the
process-wide random source (`rand::thread_rng`), has mass 87, and the draws
are centred on zero (positions on the box-width scale, velocities on the
millimetre-per-second scale). -/
def initAux : ℕ → Rng → List Particle
  | 0, _ => []
  | c + 1, r =>
      let pv := drawV3 r 5 simParams.box_width
      let vv := drawV3 pv.2 17 (1 / 1000)
      ⟨pv.1, vv.1, 87⟩ :: initAux c vv.2

/-- The driver's initialisation as a function of the entropy the process-wide
random source happens to hold: no seed is ever set in src/main.rs. -/
def initFromEntropy (entropy count : ℕ) : List Particle :=
  initAux count ⟨entropy⟩

/-- A driver run: initial state drawn from the ambient entropy, then `n`
frames of the simulation. -/
def driverRun (entropy count n : ℕ) : SimState :=
  runSim simParams timestep entropy (initFromEntropy entropy count) n

/-! ## The main stepping loop (src/main.rs lines 164–178)

`for _i in 0..50_000 { sim.step(); if (_i > 0) && (_i % 50 == 0) { write } }` -/

/-- Observable trace of the main loop: how many times `sim.step()` ran and
at which frame indices the statistics were written. -/
structure RunTrace where
  stepCalls : ℕ
  flushed : List ℕ
  deriving DecidableEq, Repr

/-- One iteration of the main loop at frame index `i`: call `sim.step()`,
then write the statistics when `i > 0 ∧ i % 50 = 0`. -/
def frameIter (st : RunTrace) (i : ℕ) : RunTrace :=
  let st1 : RunTrace := ⟨st.stepCalls + 1, st.flushed⟩
  if 0 < i ∧ i % 50 = 0 then ⟨st1.stepCalls, st1.flushed ++ [i]⟩ else st1

/-- The trace of `for _i in 0..50_000`. -/
def mainLoopTrace : RunTrace :=
  (List.range 50000).foldl frameIter ⟨0, []⟩

end EvapCooling

namespace EvapCooling

/-- Claim C1: for every single collision event resolved by the collision
engine between particles A and B with masses `mA`, `mB`, the total momentum
of the pair after the event equals the total momentum before it, and the
total kinetic energy after equals the total kinetic energy before (elastic
collision).  `w` is the randomly drawn post-collision relative velocity,
constrained to have the same squared norm as the pre-collision relative
velocity. -/
theorem collision_conserves_momentum_and_energy
    (mA mB : ℚ) (vA vB w : V3)
    (hmA : 0 < mA) (hmB : 0 < mB)
    (hw : V3.normSq w = V3.normSq (V3.sub vA vB)) :
    momentum mA mB (elasticCollision mA mB vA vB w).1 (elasticCollision mA mB vA vB w).2
      = momentum mA mB vA vB ∧
    kineticEnergy mA mB (elasticCollision mA mB vA vB w).1 (elasticCollision mA mB vA vB w).2
      = kineticEnergy mA mB vA vB := by
  have hM : mA + mB ≠ 0 := by positivity
  constructor
  · simp only [momentum, elasticCollision, V3.add, V3.sub, V3.smul, V3.mk.injEq]
    refine ⟨?_, ?_, ?_⟩ <;> field_simp <;> ring
  · simp only [kineticEnergy, elasticCollision, V3.add, V3.sub, V3.smul, V3.normSq] at hw ⊢
    field_simp
    linear_combination (2 * mA * mB * (mA + mB)) * hw

/-- Concrete witness for C1: equal unit masses, `vA = (1,0,0)`, `vB = 0`,
post-collision relative velocity rotated onto the y-axis. -/
theorem collision_conserves_momentum_and_energy_witness :
    (0 : ℚ) < 1 ∧ (0 : ℚ) < 1 ∧
    V3.normSq ⟨0, 1, 0⟩ = V3.normSq (V3.sub ⟨1, 0, 0⟩ V3.zero) ∧
    (momentum 1 1 (elasticCollision 1 1 ⟨1, 0, 0⟩ V3.zero ⟨0, 1, 0⟩).1
        (elasticCollision 1 1 ⟨1, 0, 0⟩ V3.zero ⟨0, 1, 0⟩).2
      = momentum 1 1 ⟨1, 0, 0⟩ V3.zero ∧
    kineticEnergy 1 1 (elasticCollision 1 1 ⟨1, 0, 0⟩ V3.zero ⟨0, 1, 0⟩).1
        (elasticCollision 1 1 ⟨1, 0, 0⟩ V3.zero ⟨0, 1, 0⟩).2
      = kineticEnergy 1 1 ⟨1, 0, 0⟩ V3.zero) :=
  ⟨by norm_num, by norm_num, by norm_num [V3.normSq, V3.sub, V3.zero],
   collision_conserves_momentum_and_energy 1 1 ⟨1, 0, 0⟩ V3.zero ⟨0, 1, 0⟩
     (by norm_num) (by norm_num) (by norm_num [V3.normSq, V3.sub, V3.zero])⟩

/-- Claim C6: the configuration supplied at setup satisfies the positivity
preconditions — cross-section σ (1.95e-19), box width (1e-6), macroparticle
factor (4e2) and collision ceiling (10 000) are strictly positive, and the
box count (1000) is nonzero — so the setup-time configuration-error branch
is unreachable for this run. -/
theorem sim_params_satisfy_positivity :
    0 < simParams.sigma ∧ 0 < simParams.box_width ∧ 0 < simParams.macroparticle ∧
    0 < simParams.collision_limit ∧ simParams.box_number ≠ 0 := by
  refine ⟨?_, ?_, ?_, ?_, ?_⟩ <;> norm_num [simParams]

theorem foldl_frameIter_stepCalls (l : List ℕ) (s : RunTrace) :
    (l.foldl frameIter s).stepCalls = s.stepCalls + l.length := by
  induction l generalizing s with
  | nil => simp
  | cons i rest ih =>
      have h : (frameIter s i).stepCalls = s.stepCalls + 1 := by
        simp only [frameIter]; split <;> rfl
      simp only [List.foldl_cons, ih, h, List.length_cons]
      omega

theorem foldl_frameIter_flushed (l : List ℕ) (s : RunTrace) :
    (l.foldl frameIter s).flushed =
      s.flushed ++ l.filter fun i => decide (0 < i) && decide (i % 50 = 0) := by
  induction l generalizing s with
  | nil => simp
  | cons i rest ih =>
      simp only [List.foldl_cons, ih, List.filter_cons]
      by_cases h : 0 < i ∧ i % 50 = 0
      · have hb : (decide (0 < i) && decide (i % 50 = 0)) = true := by
          simp [h.1, h.2]
        simp only [frameIter, if_pos h, hb, if_pos]
        simp
      · have hb : (decide (0 < i) && decide (i % 50 = 0)) = false := by
          rcases Decidable.not_and_iff_or_not.mp h with h1 | h1 <;> simp [h1]
        simp only [frameIter, if_neg h, hb]
        simp

/-- Claim C8: the run is bounded by a fixed iteration count decided at
start — the main stepping loop executes exactly 50 000 iterations, calling
`sim.step` once per iteration, and then terminates. -/
theorem main_loop_steps_exactly_50000 : mainLoopTrace.stepCalls = 50000 := by
  rw [mainLoopTrace, foldl_frameIter_stepCalls, List.length_range]

/-- Claim C3: collision statistics are flushed exactly at frame indices `i`
of the run with `i > 0` and `i` divisible by 50, and at no other frame. -/
theorem stats_flushed_exactly_every_50_frames (i : ℕ) :
    i ∈ mainLoopTrace.flushed ↔ 0 < i ∧ i % 50 = 0 ∧ i < 50000 := by
  simp only [mainLoopTrace, foldl_frameIter_flushed, List.nil_append,
    List.mem_filter, List.mem_range, Bool.and_eq_true, decide_eq_true_eq]
  tauto

/-- Claim C2: the realized number of collisions resolved in any collision
box in any frame is at most the configured per-frame ceiling; with
`collision_limit` configured as 10 000, no box resolves more than 10 000
collisions regardless of how high the uncapped rate estimate is. -/
theorem per_box_collisions_at_most_ceiling (dt : ℚ) (ps : List Particle)
    (members : List ℕ) (rng : Rng) :
    (resolveBox simParams dt ps members rng).2.1 ≤ 10000 := by
  unfold resolveBox
  split
  · exact Nat.zero_le _
  · simp only [realizedCollisions]
    have hle : min (boxRate simParams dt members.length
        (vbarSq (members.map fun i => (ps.getD i default).vel)))
        simParams.collision_limit + 1/2 ≤ (10000 : ℚ) + 1/2 := by
      have := min_le_right (boxRate simParams dt members.length
        (vbarSq (members.map fun i => (ps.getD i default).vel)))
        simParams.collision_limit
      simp only [simParams] at this ⊢
      linarith
    have hr : round (min (boxRate simParams dt members.length
        (vbarSq (members.map fun i => (ps.getD i default).vel)))
        simParams.collision_limit) ≤ 10000 := by
      rw [round_eq]
      calc ⌊min (boxRate simParams dt members.length
            (vbarSq (members.map fun i => (ps.getD i default).vel)))
            simParams.collision_limit + 1/2⌋ ≤ ⌊(10000 : ℚ) + 1/2⌋ :=
              Int.floor_le_floor hle
        _ = 10000 := by norm_num
    omega

/-- Claim C9: the tracker's three sequences mirror the Rust element types
(`Vec<i32>`, `Vec<f64>`, `Vec<i32>`) and the tracker is an append-only
sequence spanning the run: recording a frame appends exactly one integer
collision count, one rational mean-atoms-per-box and one integer
occupied-box count, every later frame's tracker extends the earlier one by
one record, and after `n` frames each sequence has exactly `n` entries. -/
theorem tracker_shape_append_only :
    (∀ (t : CollisionsTracker) (s : FrameStats),
        (recordFrame t s).num_collisions = t.num_collisions ++ [(s.collisions : ℤ)] ∧
        (recordFrame t s).num_atoms = t.num_atoms ++
          [if s.occupied = 0 then 0 else (s.occupiedAtoms : ℚ) / (s.occupied : ℚ)] ∧
        (recordFrame t s).num_particles = t.num_particles ++ [(s.occupied : ℤ)]) ∧
    (∀ (params : CollisionParameters) (dt : ℚ) (seed : ℕ) (init : List Particle) (n : ℕ),
        ∃ s : FrameStats,
          (runSim params dt seed init (n + 1)).tracker =
            recordFrame (runSim params dt seed init n).tracker s) ∧
    (∀ (params : CollisionParameters) (dt : ℚ) (seed : ℕ) (init : List Particle) (n : ℕ),
        (runSim params dt seed init n).tracker.num_collisions.length = n ∧
        (runSim params dt seed init n).tracker.num_atoms.length = n ∧
        (runSim params dt seed init n).tracker.num_particles.length = n) := by
  have hstep : ∀ (params : CollisionParameters) (dt : ℚ) (seed : ℕ)
      (init : List Particle) (n : ℕ),
      runSim params dt seed init (n + 1) =
        simStep params dt (runSim params dt seed init n) := by
    intro params dt seed init n
    simp only [runSim, Function.iterate_succ_apply']
  refine ⟨fun t s => ⟨rfl, rfl, rfl⟩, fun params dt seed init n => ?_, ?_⟩
  · exact ⟨(collideFrame params dt (drift dt (runSim params dt seed init n).particles)
      (runSim params dt seed init n).rng).2.1, by rw [hstep]; rfl⟩
  · intro params dt seed init n
    induction n with
    | zero => exact ⟨rfl, rfl, rfl⟩
    | succ m ih =>
        rw [hstep]
        have htr : (simStep params dt (runSim params dt seed init m)).tracker =
            recordFrame (runSim params dt seed init m).tracker
              ((collideFrame params dt (drift dt (runSim params dt seed init m).particles)
                (runSim params dt seed init m).rng).2.1) := rfl
        rw [htr]
        refine ⟨?_, ?_, ?_⟩ <;>
          simp [recordFrame, ih.1, ih.2.1, ih.2.2]

theorem digitChar_isDigit (d : ℕ) (h : d < 10) : (Nat.digitChar d).isDigit = true := by
  interval_cases d <;> decide

theorem mem_natDigitsAux (fuel n : ℕ) (c : Char) (hc : c ∈ natDigitsAux fuel n) :
    ∃ d, d < 10 ∧ c = Nat.digitChar d := by
  induction fuel generalizing n with
  | zero => simp [natDigitsAux] at hc
  | succ f ih =>
      simp only [natDigitsAux] at hc
      split at hc
      · simp at hc
      · rcases List.mem_append.mp hc with h | h
        · exact ih _ h
        · simp only [List.mem_singleton] at h
          exact ⟨n % 10, Nat.mod_lt _ (by norm_num), h⟩

theorem natStr_chars (n : ℕ) (c : Char) (hc : c ∈ (natStr n).data) :
    c.isDigit = true := by
  unfold natStr at hc
  split at hc
  · have h0 : ("0" : String).data = ['0'] := rfl
    rw [h0, List.mem_singleton] at hc
    subst hc; decide
  · have hmk : (String.mk (natDigitsAux (n + 1) n)).data = natDigitsAux (n + 1) n := rfl
    rw [hmk] at hc
    obtain ⟨d, hd, rfl⟩ := mem_natDigitsAux _ _ _ hc
    exact digitChar_isDigit d hd

theorem intStr_chars (i : ℤ) (c : Char) (hc : c ∈ (intStr i).data) :
    c.isDigit = true ∨ c = '-' := by
  unfold intStr at hc
  split at hc
  · rw [String.data_append] at hc
    rcases List.mem_append.mp hc with h | h
    · have hm : ("-" : String).data = ['-'] := rfl
      rw [hm, List.mem_singleton] at h
      exact Or.inr h
    · exact Or.inl (natStr_chars _ _ h)
  · exact Or.inl (natStr_chars _ _ hc)

theorem format2dp_chars (q : ℚ) (c : Char) (hc : c ∈ (format2dp q).data) :
    c.isDigit = true ∨ c = '-' ∨ c = '.' := by
  unfold format2dp at hc
  simp only [String.data_append] at hc
  rcases List.mem_append.mp hc with h | h
  · rcases List.mem_append.mp h with h2 | h2
    · rcases List.mem_append.mp h2 with h3 | h3
      · split at h3
        · have hm : ("-" : String).data = ['-'] := rfl
          rw [hm, List.mem_singleton] at h3
          exact Or.inr (Or.inl h3)
        · have hm : ("" : String).data = [] := rfl
          rw [hm] at h3
          simp at h3
      · exact Or.inl (natStr_chars _ _ h3)
    · rw [List.mem_singleton] at h2
      exact Or.inr (Or.inr h2)
  · rcases List.mem_cons.mp h with h2 | h2
    · exact Or.inl (h2 ▸ digitChar_isDigit _ (Nat.mod_lt _ (by norm_num)))
    · rcases List.mem_cons.mp h2 with h3 | h3
      · exact Or.inl (h3 ▸ digitChar_isDigit _ (Nat.mod_lt _ (by norm_num)))
      · simp at h3

theorem joinSpace_chars (P : Char → Prop) (hsp : P ' ') :
    ∀ l : List String, (∀ s ∈ l, ∀ c ∈ s.data, P c) →
      ∀ c ∈ (joinSpace l).data, P c := by
  intro l
  induction l with
  | nil =>
      intro _ c hc
      have hm : ("" : String).data = [] := rfl
      rw [joinSpace, hm] at hc
      simp at hc
  | cons s rest ih =>
      cases rest with
      | nil =>
          intro hl c hc
          exact hl s (List.mem_singleton.mpr rfl) c hc
      | cons s2 r2 =>
          intro hl c hc
          rw [joinSpace] at hc
          simp only [String.data_append] at hc
          rcases List.mem_append.mp hc with h | h
          · rcases List.mem_append.mp h with h2 | h2
            · exact hl s (by simp) c h2
            · rw [List.mem_singleton] at h2
              exact h2 ▸ hsp
          · exact ih (fun t ht c2 hc2 => hl t (List.mem_cons_of_mem _ ht) c2 hc2) c h

theorem not_CR_LF_of_table_char (c : Char)
    (h : c.isDigit = true ∨ c = '-' ∨ c = '.' ∨ c = ' ') :
    (!(c == '\r') && !(c == '\n')) = true := by
  rcases h with h2 | h2 | h2 | h2
  · have hr : c ≠ '\r' := by
      intro he; rw [he] at h2; exact absurd h2 (by decide)
    have hn : c ≠ '\n' := by
      intro he; rw [he] at h2; exact absurd h2 (by decide)
    simp [hr, hn]
  all_goals subst h2; decide

theorem noCRLF_of_table_chars (s : String)
    (h : ∀ c ∈ s.data, c.isDigit = true ∨ c = '-' ∨ c = '.' ∨ c = ' ') :
    noCRLF s = true := by
  rw [noCRLF, List.all_eq_true]
  intro c hc
  exact not_CR_LF_of_table_char c (h c hc)

theorem noCRLF_intStr (i : ℤ) : noCRLF (intStr i) = true := by
  refine noCRLF_of_table_chars _ fun c hc => ?_
  rcases intStr_chars i c hc with h | h
  · exact Or.inl h
  · exact Or.inr (Or.inl h)

theorem noCRLF_joinSpace_int (l : List ℤ) : noCRLF (joinSpace (l.map intStr)) = true := by
  refine noCRLF_of_table_chars _ fun c hc => ?_
  refine joinSpace_chars (fun c => c.isDigit = true ∨ c = '-' ∨ c = '.' ∨ c = ' ')
    (Or.inr (Or.inr (Or.inr rfl))) (l.map intStr) ?_ c hc
  intro s hs c2 hc2
  obtain ⟨i, _, rfl⟩ := List.mem_map.mp hs
  rcases intStr_chars i c2 hc2 with h | h
  · exact Or.inl h
  · exact Or.inr (Or.inl h)

theorem noCRLF_joinSpace_fmt (l : List ℚ) : noCRLF (joinSpace (l.map format2dp)) = true := by
  refine noCRLF_of_table_chars _ fun c hc => ?_
  refine joinSpace_chars (fun c => c.isDigit = true ∨ c = '-' ∨ c = '.' ∨ c = ' ')
    (Or.inr (Or.inr (Or.inr rfl))) (l.map format2dp) ?_ c hc
  intro s hs c2 hc2
  obtain ⟨q, _, rfl⟩ := List.mem_map.mp hs
  rcases format2dp_chars q c2 hc2 with h | h | h
  · exact Or.inl h
  · exact Or.inr (Or.inl h)
  · exact Or.inr (Or.inr (Or.inl h))

theorem twoDecimalShape_format2dp (q : ℚ) : twoDecimalShape (format2dp q) = true := by
  have hdata : (format2dp q).data =
      ((if round (q * 100) < 0 then "-" else "") ++
          natStr ((round (q * 100)).natAbs / 100)).data ++ ['.'] ++
        [Nat.digitChar ((round (q * 100)).natAbs / 10 % 10),
         Nat.digitChar ((round (q * 100)).natAbs % 10)] := by
    simp [format2dp, String.data_append]
  rw [twoDecimalShape, hdata]
  simp only [List.reverse_append, List.reverse_cons, List.reverse_nil, List.nil_append,
    List.cons_append, List.singleton_append]
  simp only [Bool.and_eq_true, beq_self_eq_true, List.all_eq_true]
  refine ⟨⟨⟨digitChar_isDigit _ (Nat.mod_lt _ (by norm_num)),
    digitChar_isDigit _ (Nat.mod_lt _ (by norm_num))⟩, trivial⟩, ?_⟩
  intro e he
  rw [List.mem_reverse] at he
  have hch : e.isDigit = true ∨ e = '-' := by
    rw [String.data_append] at he
    rcases List.mem_append.mp he with h | h
    · by_cases hn : round (q * 100) < 0
      · rw [if_pos hn] at h
        have hm : ("-" : String).data = ['-'] := rfl
        rw [hm, List.mem_singleton] at h
        exact Or.inr h
      · rw [if_neg hn] at h
        have hm : ("" : String).data = [] := rfl
        rw [hm] at h; simp at h
    · exact Or.inl (natStr_chars _ _ h)
  rcases hch with h | h
  · have : e ≠ '.' := by
      intro he2; rw [he2] at h; exact absurd h (by decide)
    simp [this]
  · rw [h]; decide

theorem plainDecimal_intStr (i : ℤ) : plainDecimal (intStr i) = true := by
  rw [plainDecimal, List.all_eq_true]
  intro c hc
  rcases intStr_chars i c hc with h | h <;> simp [h]

theorem all_plainDecimal_intStr (l : List ℤ) :
    (l.map intStr).all plainDecimal = true := by
  rw [List.all_eq_true]
  intro s hs
  obtain ⟨i, _, rfl⟩ := List.mem_map.mp hs
  exact plainDecimal_intStr i

/-- Claim C4: each invocation of `write_collisions_tracker` writes a
whitespace/line-delimited text table — the frame index on one line, then one
line per recorded quantity (collision counts, mean atoms per box,
occupied-box counts), each line the space-joined values of that quantity,
and none of the four lines contains a carriage return or line feed of its
own. -/
theorem write_collisions_tracker_is_line_table (step : ℤ) (cs : List ℤ)
    (atoms : List ℚ) (ps : List ℤ) :
    write_collisions_tracker step cs atoms ps =
      intStr step ++ "\r\n" ++ joinSpace (cs.map intStr) ++ "\r\n" ++
        joinSpace (atoms.map format2dp) ++ "\r\n" ++ joinSpace (ps.map intStr) ++ "\r\n" ∧
    noCRLF (intStr step) = true ∧
    noCRLF (joinSpace (cs.map intStr)) = true ∧
    noCRLF (joinSpace (atoms.map format2dp)) = true ∧
    noCRLF (joinSpace (ps.map intStr)) = true :=
  ⟨rfl, noCRLF_intStr step, noCRLF_joinSpace_int cs, noCRLF_joinSpace_fmt atoms,
    noCRLF_joinSpace_int ps⟩

/-- Claim C10: in every output block, the mean atoms-per-box values are
formatted with exactly two decimal places, the collision counts and
occupied-box counts are plain decimal integers, and each of the four lines
of the block is terminated by a `"\r\n"` sequence. -/
theorem write_collisions_tracker_number_formats (step : ℤ) (cs : List ℤ)
    (atoms : List ℚ) (ps : List ℤ) :
    write_collisions_tracker step cs atoms ps =
      intStr step ++ "\r\n" ++ joinSpace (cs.map intStr) ++ "\r\n" ++
        joinSpace (atoms.map format2dp) ++ "\r\n" ++ joinSpace (ps.map intStr) ++ "\r\n" ∧
    (atoms.map format2dp).all twoDecimalShape = true ∧
    (cs.map intStr).all plainDecimal = true ∧
    (ps.map intStr).all plainDecimal = true ∧
    plainDecimal (intStr step) = true := by
  refine ⟨rfl, ?_, all_plainDecimal_intStr cs, all_plainDecimal_intStr ps,
    plainDecimal_intStr step⟩
  rw [List.all_eq_true]
  intro s hs
  obtain ⟨q, _, rfl⟩ := List.mem_map.mp hs
  exact twoDecimalShape_format2dp q

theorem outputLoop_write_failure (tr : CollisionsTracker) (l : List ℕ) :
    ∀ f : StatsFile, f.writable = false → (∃ i ∈ l, 0 < i ∧ i % 50 = 0) →
      outputLoop tr l f = .error .writeFailed := by
  induction l with
  | nil => simp
  | cons i rest ih =>
      intro f hf hex
      rw [outputLoop]
      by_cases hi : 0 < i ∧ i % 50 = 0
      · rw [if_pos hi]
        have hfl : flushStats tr f (i : ℤ) = .error .writeFailed := by
          unfold flushStats write_collisions_tracker_call fileWrite
          rw [hf]
          simp
        rw [hfl]
      · rw [if_neg hi]
        refine ih f hf ?_
        rcases hex with ⟨j, hj, hj2⟩
        rcases List.mem_cons.mp hj with h | h
        · exact absurd (h ▸ hj2) hi
        · exact ⟨j, h, hj2⟩

/-- Claim C5: an unwritable statistics destination is fatal to the run —
`write_collisions_tracker` returns an error exactly when the underlying file
write fails; the caller aborts the run on that error; the run likewise
aborts at setup when the statistics file cannot be created; and the
in-memory `CollisionsTracker` is not modified by the write attempt. -/
theorem stats_output_errors_are_fatal :
    (∀ (f : StatsFile) (step : ℤ) (cs : List ℤ) (atoms : List ℚ) (ps : List ℤ),
        (∃ e, write_collisions_tracker_call f step cs atoms ps = .error e) ↔
          f.writable = false) ∧
    (∀ (tr : CollisionsTracker) (f : StatsFile) (step : ℤ)
        (tr2 : CollisionsTracker) (f2 : StatsFile),
        flushStats tr f step = .ok (tr2, f2) → tr2 = tr) ∧
    (∀ (w : Bool) (tr : CollisionsTracker) (n : ℕ),
        outputRun false w tr n = .error .createFailed) ∧
    (∀ (tr : CollisionsTracker) (n : ℕ), 51 ≤ n →
        outputRun true false tr n = .error .writeFailed) := by
  refine ⟨?_, ?_, ?_, ?_⟩
  · intro f step cs atoms ps
    unfold write_collisions_tracker_call fileWrite
    cases hw : f.writable <;> simp [hw]
  · intro tr f step tr2 f2 h
    unfold flushStats at h
    cases hcall : write_collisions_tracker_call f step tr.num_collisions
        tr.num_atoms tr.num_particles with
    | ok f3 =>
        rw [hcall] at h
        simp only [Except.ok.injEq, Prod.mk.injEq] at h
        exact h.1.symm
    | error e =>
        rw [hcall] at h
        simp at h
  · intro w tr n
    rfl
  · intro tr n hn
    unfold outputRun createStatsFile
    rw [if_pos rfl]
    exact outputLoop_write_failure tr (List.range n) ⟨"", false⟩ rfl
      ⟨50, List.mem_range.mpr (by omega), by norm_num⟩

/-- Concrete witness for C5: a successful flush of the empty tracker leaves
it unchanged, and a 51-frame run against an unwritable destination aborts
with the write error. -/
theorem stats_output_errors_are_fatal_witness :
    CollisionsTracker.empty = CollisionsTracker.empty ∧ 51 ≤ 51 ∧
    outputRun true false CollisionsTracker.empty 51 = .error .writeFailed :=
  ⟨stats_output_errors_are_fatal.2.1 CollisionsTracker.empty ⟨"", true⟩ 50
      CollisionsTracker.empty ⟨"50\r\n\r\n\r\n\r\n", true⟩ (by rfl),
   by norm_num,
   stats_output_errors_are_fatal.2.2.2 CollisionsTracker.empty 51 (by norm_num)⟩


/-- Claim C7: given an identical random seed, identical initial particle
state and identical configuration, two runs of `n` frames produce identical
`CollisionsTracker` sequences; and without explicit seed control — the
driver draws all initial positions and velocities from the ambient
`rand::thread_rng` entropy — reproducibility across runs is not guaranteed:
two ambient-entropy values are exhibited whose one-frame driver runs
produce different tracker sequences. -/
theorem determinism_under_fixed_seed :
    (∀ (params params2 : CollisionParameters) (dt dt2 : ℚ) (seed seed2 : ℕ)
        (init init2 : List Particle) (n : ℕ),
        seed = seed2 → init = init2 → params = params2 → dt = dt2 →
        (runSim params dt seed init n).tracker =
          (runSim params2 dt2 seed2 init2 n).tracker) ∧
    (∃ e1 e2 : ℕ, (driverRun e1 2 1).tracker ≠ (driverRun e2 2 1).tracker) := by
  constructor
  · rintro params params2 dt dt2 seed seed2 init init2 n rfl rfl rfl rfl
    rfl
  · refine ⟨23, 0, ?_⟩
    have hinit23 : initFromEntropy 23 2 =
        [⟨⟨1/1000000, 1/500000, -1/500000⟩, ⟨-1/125, 1/250, -1/200⟩, 87⟩,
         ⟨⟨0, 1/500000, -1/500000⟩, ⟨3/1000, 1/200, -3/500⟩, 87⟩] := by
      norm_num [initFromEntropy, initAux, drawV3, drawComp, Rng.next, simParams,
        Particle.mk.injEq, V3.mk.injEq]
    have hdrift23 : drift timestep
        [⟨⟨1/1000000, 1/500000, -1/500000⟩, ⟨-1/125, 1/250, -1/200⟩, 87⟩,
         ⟨⟨0, 1/500000, -1/500000⟩, ⟨3/1000, 1/200, -3/500⟩, 87⟩] =
        [⟨⟨31/31250000, 501/250000000, -401/200000000⟩, ⟨-1/125, 1/250, -1/200⟩, 87⟩,
         ⟨⟨3/1000000000, 401/200000000, -1003/500000000⟩, ⟨3/1000, 1/200, -3/500⟩, 87⟩] := by
      norm_num [drift, timestep, V3.add, V3.smul, Particle.mk.injEq, V3.mk.injEq]
    set P23 : List Particle :=
        [⟨⟨31/31250000, 501/250000000, -401/200000000⟩, ⟨-1/125, 1/250, -1/200⟩, 87⟩,
         ⟨⟨3/1000000000, 401/200000000, -1003/500000000⟩, ⟨3/1000, 1/200, -3/500⟩, 87⟩]
      with hP23
    have hboxes23 : boxesOf simParams.box_width P23 = [(0, 2, -3)] := by
      norm_num [hP23, boxesOf, boxIndex, simParams, List.dedup_cons_of_mem,
        List.dedup_cons_of_not_mem, Prod.ext_iff]
    have hmem23 : membersIn simParams.box_width P23 (0, 2, -3) = [0, 1] := by
      norm_num [hP23, membersIn, boxIndex, simParams, List.enum, List.enumFrom,
        List.filter, Prod.ext_iff]
    have hres23 : resolveBox simParams timestep P23 [0, 1] ⟨23⟩ = (P23, 0, ⟨23⟩) := by
      have hcount : realizedCollisions (boxRate simParams timestep ([0, 1] : List ℕ).length
          (vbarSq (([0, 1] : List ℕ).map fun i => (P23.getD i default).vel)))
          simParams.collision_limit = 0 := by
        have h1 : boxRate simParams timestep ([0, 1] : List ℕ).length
            (vbarSq (([0, 1] : List ℕ).map fun i => (P23.getD i default).vel)) =
            4797 / 250000000000 := by
          norm_num [hP23, boxRate, vbarSq, pairRelSqSum, V3.normSq, V3.sub, simParams, timestep]
        rw [realizedCollisions, h1]
        have h2 : min (4797 / 250000000000 : ℚ) simParams.collision_limit =
            4797 / 250000000000 := by
          rw [min_eq_left]
          norm_num [simParams]
        rw [h2, round_eq]
        norm_num
      simp only [resolveBox]
      rw [if_neg (by norm_num), hcount]
      simp
    have hcf23 : collideFrame simParams timestep P23 ⟨23⟩ = (P23, ⟨0, 2, 1⟩, ⟨23⟩) := by
      simp only [collideFrame, hboxes23, List.foldl_cons, List.foldl_nil, hmem23]
      rw [if_neg (by norm_num), hres23]
      simp
    have h23 : (driverRun 23 2 1).tracker = ⟨[0], [2], [1]⟩ := by
      show (runSim simParams timestep 23 (initFromEntropy 23 2) 1).tracker = _
      rw [runSim, Function.iterate_one]
      show (simStep simParams timestep ⟨initFromEntropy 23 2, .empty, ⟨23⟩⟩).tracker = _
      simp only [simStep, hinit23, hdrift23]
      rw [hcf23]
      simp [recordFrame, CollisionsTracker.empty]
    have hinit0 : initFromEntropy 0 2 =
        [⟨⟨-1/500000, 1/1000000, 1/1000000⟩, ⟨-1/125, 1/200, 1/250⟩, 87⟩,
         ⟨⟨-1/500000, -1/1000000, 0⟩, ⟨1/250, -1/250, -3/1000⟩, 87⟩] := by
      norm_num [initFromEntropy, initAux, drawV3, drawComp, Rng.next, simParams,
        Particle.mk.injEq, V3.mk.injEq]
    have hdrift0 : drift timestep
        [⟨⟨-1/500000, 1/1000000, 1/1000000⟩, ⟨-1/125, 1/200, 1/250⟩, 87⟩,
         ⟨⟨-1/500000, -1/1000000, 0⟩, ⟨1/250, -1/250, -3/1000⟩, 87⟩] =
        [⟨⟨-251/125000000, 201/200000000, 251/250000000⟩, ⟨-1/125, 1/200, 1/250⟩, 87⟩,
         ⟨⟨-499/250000000, -251/250000000, -3/1000000000⟩, ⟨1/250, -1/250, -3/1000⟩, 87⟩] := by
      norm_num [drift, timestep, V3.add, V3.smul, Particle.mk.injEq, V3.mk.injEq]
    set P0 : List Particle :=
        [⟨⟨-251/125000000, 201/200000000, 251/250000000⟩, ⟨-1/125, 1/200, 1/250⟩, 87⟩,
         ⟨⟨-499/250000000, -251/250000000, -3/1000000000⟩, ⟨1/250, -1/250, -3/1000⟩, 87⟩]
      with hP0
    have hboxes0 : boxesOf simParams.box_width P0 = [(-3, 1, 1), (-2, -2, -1)] := by
      norm_num [hP0, boxesOf, boxIndex, simParams, List.dedup_cons_of_mem,
        List.dedup_cons_of_not_mem, Prod.ext_iff]
    have hmem0a : membersIn simParams.box_width P0 (-3, 1, 1) = [0] := by
      norm_num [hP0, membersIn, boxIndex, simParams, List.enum, List.enumFrom,
        List.filter, Prod.ext_iff]
    have hmem0b : membersIn simParams.box_width P0 (-2, -2, -1) = [1] := by
      norm_num [hP0, membersIn, boxIndex, simParams, List.enum, List.enumFrom,
        List.filter, Prod.ext_iff]
    have hcf0 : collideFrame simParams timestep P0 ⟨0⟩ = (P0, ⟨0, 0, 0⟩, ⟨0⟩) := by
      simp only [collideFrame, hboxes0, List.foldl_cons, List.foldl_nil, hmem0a]
      rw [if_pos (show ([0] : List ℕ).length < 2 by norm_num)]
      simp only [hmem0b]
      rw [if_pos (show ([1] : List ℕ).length < 2 by norm_num)]
    have h0 : (driverRun 0 2 1).tracker = ⟨[0], [0], [0]⟩ := by
      show (runSim simParams timestep 0 (initFromEntropy 0 2) 1).tracker = _
      rw [runSim, Function.iterate_one]
      show (simStep simParams timestep ⟨initFromEntropy 0 2, .empty, ⟨0⟩⟩).tracker = _
      simp only [simStep, hinit0, hdrift0]
      rw [hcf0]
      simp [recordFrame, CollisionsTracker.empty]
    rw [h23, h0]
    intro h
    norm_num [CollisionsTracker.mk.injEq] at h

/-- Concrete witness for C7: the determinism half applied at seed 23, the
empty initial state and the run configuration. -/
theorem determinism_under_fixed_seed_witness :
    (23 : ℕ) = 23 ∧ ([] : List Particle) = [] ∧ simParams = simParams ∧
    timestep = timestep ∧
    (runSim simParams timestep 23 [] 1).tracker =
      (runSim simParams timestep 23 [] 1).tracker :=
  ⟨rfl, rfl, rfl, rfl,
   determinism_under_fixed_seed.1 simParams simParams timestep timestep 23 23
     [] [] 1 rfl rfl rfl rfl⟩

end EvapCooling
